import Mathlib

set_option maxRecDepth 8000

/-!
A shallow embedding of the step-sequencer engine of the ATtiny repository,
covering its two variants:

* the local-clock audio variant `src/sequencer/main.c` (ATtiny13): button
  polling, step decode into sawtooth synthesis parameters, and the
  audio-rate timer interrupt that runs the fixed-point phase accumulator;
* the remote-clock variant `src/85/sequencer_pwm_uart/main.c` (ATtiny85):
  serial-byte driven start/stop/clock state machine and the transmit
  handoff to the software UART layer.

Machine integers are modelled as `Nat` with explicit `% 65536` (uint16_t)
and `% 256` (uint8_t) where the C code can overflow.  The headers
`sequencer.h` and `include_85/software_uart.h` are not present in the
sources; the few constants taken from them are modelled from the spec and
marked as such in their doc comments.
-/

/-! ## Constants of src/sequencer/main.c (local-clock audio variant) -/

/-- `PEAK_LOW` of src/sequencer/main.c line 36. -/
def PEAK_LOW : Nat := 0x00

/-- `PEAK_HIGH` of src/sequencer/main.c line 37. -/
def PEAK_HIGH : Nat := 0xFF

/-- `SEQUENCER_COUNTUPTO` of src/sequencer/main.c line 40: number of steps
of each program (array row length). -/
def SEQUENCER_COUNTUPTO : Nat := 64

/-- `SEQUENCER_SEQUENCENUMBER` of src/sequencer/main.c line 41: number of
programs. -/
def SEQUENCER_SEQUENCENUMBER : Nat := 3

/-- `INPUT_SENSITIVITY` of src/amplifier/main.c line 58: number of
consecutive matching polls needed by the debounce counter. -/
def INPUT_SENSITIVITY : Nat := 250

/-! ## Step decode of the local variant (src/sequencer/main.c lines 156-206) -/

/-- Outcome of one step decode in src/sequencer/main.c lines 156-206.
`note p d t` stands for the branch that assigns `count_per_2pi_buffer = p`,
`fixed_delta_sawtooth_buffer = d` and `osccal_tuning = t`; `silence` for the
final else branch that clears all three; `calib x` for the
`sequencer_value >= 223` branch that assigns only `osccal_pitch = x` and
leaves the note buffers untouched. -/
inductive DecodeResult where
  | silence : DecodeResult
  | note (countPer2pi : Nat) (fixedDelta : Nat) (tuning : Int) : DecodeResult
  | calib (pitch : Int) : DecodeResult
  deriving DecidableEq, Repr

/-- The if/else chain on `sequencer_value`, src/sequencer/main.c
lines 156-206, branch for branch in source order. -/
def sequencerDecode (v : Nat) : DecodeResult :=
  if v = 11 then .note 35 ((7 <<< 7) ||| 0b0100100) 1
  else if v = 10 then .note 37 ((6 <<< 7) ||| 0b1110010) 0
  else if v = 9 then .note 41 ((6 <<< 7) ||| 0b0011100) (-1)
  else if v = 8 then .note 47 ((5 <<< 7) ||| 0b0110110) 1
  else if v = 7 then .note 52 ((4 <<< 7) ||| 0b1110011) 1
  else if v = 6 then .note 56 ((4 <<< 7) ||| 0b1000110) 1
  else if v = 5 then .note 63 ((4 <<< 7) ||| 0b0000110) 1
  else if v = 4 then .note 70 ((3 <<< 7) ||| 0b1010010) 0
  else if v = 3 then .note 75 ((3 <<< 7) ||| 0b0110011) 0
  else if v = 2 then .note 84 ((3 <<< 7) ||| 0b0000100) 0
  else if v = 1 then .note 95 ((2 <<< 7) ||| 0b1010111) 1
  else if v ≥ 223 then .calib ((v : Int) - 239)
  else .silence

/-- The wrap-period / phase-increment pair of a decode outcome, when the
outcome is a note. -/
def notePairOf : DecodeResult → Option (Nat × Nat)
  | .note p d _ => some (p, d)
  | _ => none

/-- All wrap-period / phase-increment pairs produced by the decode, one per
byte value that decodes to a note. -/
def notePairs : List (Nat × Nat) :=
  (List.range 256).filterMap fun v => notePairOf (sequencerDecode v)

/-! ## Waveform synthesizer (src/sequencer/main.c lines 245-257) -/

/-- Wave state of the audio-rate interrupt: `sample_count` and
`fixed_value_sawtooth` (both uint16_t) and the 8-bit compare register
`OCR0A`. -/
structure SynthState where
  sampleCount : Nat
  fixedValue : Nat
  ocr : Nat
  deriving DecidableEq, Repr

/-- One audio-rate tick with `function_start` set: the sawtooth section of
`ISR(TIM0_OVF_vect)`, src/sequencer/main.c lines 245-257.  The parameters
are the current `count_per_2pi` and `fixed_delta_sawtooth`.  The
`0x0040 & fixed_value_sawtooth` test of line 253 is `testBit 6`. -/
def synthStep (countPer2pi fixedDelta : Nat) (s : SynthState) : SynthState :=
  let s :=
    if s.sampleCount = 0 then
      { s with ocr := PEAK_LOW, fixedValue := PEAK_LOW <<< 7 }
    else if s.sampleCount ≤ countPer2pi then
      let v := (s.fixedValue + fixedDelta) % 65536
      let temp := ((v <<< 1) % 65536) >>> 8
      let temp := if v.testBit 6 then temp + 1 else temp
      { s with fixedValue := v, ocr := temp % 256 }
    else s
  let sc := (s.sampleCount + 1) % 65536
  { s with sampleCount := if sc > countPer2pi then 0 else sc }

/-- Wave state at power-on: `.bss` zeroes the globals and `OCR0A` is set to
`PEAK_LOW` (src/sequencer/main.c lines 123-126). -/
def synthInit : SynthState := ⟨0, 0, PEAK_LOW⟩

/-- The wave state after `k` audio ticks from power-on with a constant
parameter pair. -/
def synthIter (countPer2pi fixedDelta k : Nat) : SynthState :=
  (synthStep countPer2pi fixedDelta)^[k] synthInit

/-- The list of wave states after `0, 1, ..., n` ticks from state `s`. -/
def synthTrace (countPer2pi fixedDelta : Nat) : Nat → SynthState → List SynthState
  | 0, s => [s]
  | n + 1, s => s :: synthTrace countPer2pi fixedDelta n (synthStep countPer2pi fixedDelta s)

/-- The conversion of src/sequencer/main.c lines 252-253 stated the way the
spec describes it: the 8-bit integer part of the fixed-point accumulator
(bits 14:7), rounded half-up on fractional bit 6. -/
def specConv (v : Nat) : Nat := (v / 128) % 256 + (v / 64) % 2

/-- Boolean check that a list of naturals is strictly increasing. -/
def strictIncr : List Nat → Bool
  | [] => true
  | [_] => true
  | a :: b :: t => decide (a < b) && strictIncr (b :: t)

/-- One full cycle of the sawtooth is a ramp: starting from power-on, the
compare values emitted at ticks 1 through `p + 1` begin at `PEAK_LOW` and
strictly increase. -/
def rampOk (p d : Nat) : Bool :=
  let ocrs := ((synthTrace p d (p + 2) synthInit).drop 1).take (p + 1) |>.map (fun s => s.ocr)
  (ocrs.head? == some PEAK_LOW) && strictIncr ocrs

/-! ## Step-counter advance, both variants

In the local variant the audio ISR increments `sequencer_count_update`
(src/sequencer/main.c line 263) and the main loop clamps it when it decodes
(line 150: `if ( sequencer_count_update >= SEQUENCER_COUNTUPTO )
sequencer_count_update = 0;`).  In the remote variant the main loop
increments it on a fresh clock byte (src/85/sequencer_pwm_uart/main.c
line 93) and clamps it before the table lookup (lines 103-105:
`if ( sequencer_count_update > SEQUENCER_PROGRAM_COUNTUPTO )
sequencer_count_update = 1;`).  Both counters are uint16_t. -/

/-- One step advance of the local variant: uint16 increment followed by the
`>= SEQUENCER_COUNTUPTO → 0` clamp of src/sequencer/main.c line 150. -/
def localAdvance (c : Nat) : Nat :=
  let c := (c + 1) % 65536
  if c ≥ SEQUENCER_COUNTUPTO then 0 else c

/-! ## Constants of the missing headers, modelled from the spec -/

/-- Modelled from the spec: `SEQUENCER_PROGRAM_COUNTUPTO` lives in the
missing `sequencer.h`; the spec describes one shared design with
fixed-length programs and its example program table has 64 steps, so the
program length is taken as 64. -/
def SEQUENCER_PROGRAM_COUNTUPTO : Nat := 64

/-- Modelled from the spec: `SEQUENCER_PROGRAM_LENGTH` (the program count
used to clamp the program selector) lives in the missing `sequencer.h`; the
spec gives a small fixed set of programs, N = 3 typical. -/
def SEQUENCER_PROGRAM_LENGTH : Nat := 3

/-- Modelled from the spec: `SEQUENCER_BYTE_GROUP_START_BIT` lives in the
missing `sequencer.h`.  Per the spec's serial command byte layout, bit 3 is
the start(1)/stop(0) flag, so the mask tested by
`(byte & SEQUENCER_BYTE_GROUP_START_BIT) == SEQUENCER_BYTE_GROUP_START_BIT`
is taken as the start-flag bit `0x08`. -/
def SEQUENCER_BYTE_GROUP_START_BIT : Nat := 0x08

/-- Modelled from the spec: `SEQUENCER_BYTE_GROUP_BIT` lives in the missing
`sequencer.h`.  It is the value the masked byte takes when the start flag is
clear, so it is taken as `0x00`. -/
def SEQUENCER_BYTE_GROUP_BIT : Nat := 0x00

/-- Modelled from the spec: `SEQUENCER_BYTE_PROGRAM_MASK` lives in the
missing `sequencer.h`; the spec gives bits 2:0 of the command byte as the
sequence/program select field, so the mask is `0x07`. -/
def SEQUENCER_BYTE_PROGRAM_MASK : Nat := 0x07

/-- One step advance of the remote variant: uint16 increment followed by the
`> SEQUENCER_PROGRAM_COUNTUPTO → 1` clamp of
src/85/sequencer_pwm_uart/main.c lines 103-105. -/
def remoteAdvance (c : Nat) : Nat :=
  let c := (c + 1) % 65536
  if c > SEQUENCER_PROGRAM_COUNTUPTO then 1 else c

/-! ## Local-variant main-loop poll (src/sequencer/main.c lines 140-237) -/

/-- The sequencer-cursor part of the local variant's main-loop state:
`sequencer_count_start`, `sequencer_count_update` and the local
`sequencer_count_last`. -/
structure LocalSeqState where
  countStart : Bool
  countUpdate : Nat
  countLast : Nat
  deriving DecidableEq, Repr

/-- One main-loop poll of the local variant reduced to its cursor logic and
the program-table indices it looks up, src/sequencer/main.c lines 148-154
and 225-237.  `inputPin` is the 2-bit value built from the two buttons in
lines 141-147 (raw pins of this very poll; the file has no debounce state).
When a decode fires, the returned pair is
(`input_pin - 1`, `sequencer_count_last`), the row and column of the
`sequencer_array` access in line 154, after the clamps of lines 150 and
153. -/
def localSeqPoll (s : LocalSeqState) (inputPin : Nat) :
    LocalSeqState × Option (Nat × Nat) :=
  if inputPin ≠ 0 then
    if s.countStart = false ∨ s.countUpdate ≠ s.countLast then
      let cu := if s.countUpdate ≥ SEQUENCER_COUNTUPTO then 0 else s.countUpdate
      let pin := if inputPin ≥ SEQUENCER_SEQUENCENUMBER then SEQUENCER_SEQUENCENUMBER else inputPin
      (⟨true, cu, cu⟩, some (pin - 1, cu))
    else (s, none)
  else if s.countStart then (⟨false, 0, 0⟩, none)
  else (s, none)

/-! ## Remote-variant state machine (src/85/sequencer_pwm_uart/main.c lines 89-115) -/

/-- State of the remote variant's main loop: the buffered rx-change toggle
(`uart_status_buffer_change_last`, reduced to the toggle bit itself),
`uart_byte_last`, `sequencer_count_update` (uint16), the local `count_last`
(uint16) and `sequencer_is_start`. -/
structure RemoteSeqState where
  toggleLast : Bool
  byteLast : Nat
  countUpdate : Nat
  countLast : Nat
  isStart : Bool
  deriving DecidableEq, Repr

/-- Lines 90-94: if the rx toggle changed, latch the new byte and, when it
carries the start flag while the sequencer runs, count one clock.  The rx
channel's change indicator is modelled as the toggle `Bool` the spec
describes. -/
def seqRxPhase (s : RemoteSeqState) (toggle : Bool) (rxByte : Nat) : RemoteSeqState :=
  if s.toggleLast ≠ toggle then
    { s with toggleLast := toggle, byteLast := rxByte,
             countUpdate :=
               if rxByte &&& SEQUENCER_BYTE_GROUP_START_BIT = SEQUENCER_BYTE_GROUP_START_BIT
                  ∧ s.isStart = true
               then (s.countUpdate + 1) % 65536 else s.countUpdate }
  else s

/-- Lines 95-101: start on a latched byte with the start flag set while
idle, stop on one with the start flag clear while running. -/
def seqStartStopPhase (s : RemoteSeqState) : RemoteSeqState :=
  if s.byteLast &&& SEQUENCER_BYTE_GROUP_START_BIT = SEQUENCER_BYTE_GROUP_START_BIT
     ∧ s.isStart = false then
    { s with countUpdate := 1, countLast := 0, isStart := true }
  else if s.byteLast &&& SEQUENCER_BYTE_GROUP_START_BIT = SEQUENCER_BYTE_GROUP_BIT
          ∧ s.isStart = true then
    { s with isStart := false }
  else s

/-- One evaluation of the remote state machine against the latest serial
byte: lines 90-101 of src/85/sequencer_pwm_uart/main.c. -/
def seqMachineStep (s : RemoteSeqState) (toggle : Bool) (rxByte : Nat) : RemoteSeqState :=
  seqStartStopPhase (seqRxPhase s toggle rxByte)

/-- The byte the machine evaluates this iteration: the fresh byte if the
toggle changed, else the previously latched one. -/
def latestByte (s : RemoteSeqState) (toggle : Bool) (rxByte : Nat) : Nat :=
  if s.toggleLast ≠ toggle then rxByte else s.byteLast

/-- The clamp of src/85/sequencer_pwm_uart/main.c lines 103-105 applied to
the step counter before the lookup. -/
def remoteStepClamp (cu : Nat) : Nat :=
  if cu > SEQUENCER_PROGRAM_COUNTUPTO then 1 else cu

/-- The uint16 column index actually used by the table read of line 112:
`count_last - 1` in 16-bit arithmetic after the clamp. -/
def remoteStepIndex (cu : Nat) : Nat :=
  (remoteStepClamp cu + 65535) % 65536

/-- The row index of line 112: the masked select field of line 107 clamped
by line 109. -/
def remoteProgClamp (b : Nat) : Nat :=
  let pi := b &&& SEQUENCER_BYTE_PROGRAM_MASK
  if pi ≥ SEQUENCER_PROGRAM_LENGTH then SEQUENCER_PROGRAM_LENGTH - 1 else pi

/-- The byte/count pair handed to the software UART layer
(`software_uart_tx_byte`, `software_uart_tx_count`). -/
structure TxState where
  txByte : Nat
  txCount : Nat
  deriving DecidableEq, Repr

/-- Lines 102-115 of src/85/sequencer_pwm_uart/main.c: when the step
counter differs from the last processed value, clamp it, fetch the program
byte at the clamped position and hand it to the serial layer with a
transmit count of 9.  The program table (missing `sequencer.h`) is a
parameter. -/
def seqTxStep (table : Nat → Nat → Nat) (s : RemoteSeqState) (tx : TxState) :
    RemoteSeqState × TxState :=
  if s.countUpdate ≠ s.countLast then
    let cu := remoteStepClamp s.countUpdate
    let b := table (remoteProgClamp s.byteLast) (remoteStepIndex s.countUpdate)
    ({ s with countUpdate := cu, countLast := cu }, ⟨b, 9⟩)
  else (s, tx)

/-! ## Amplifier debounce (src/amplifier/main.c lines 144-153) -/

/-- Debounce state of the amplifier ISR: `input_pin_last`,
`input_sensitivity_count` (uint16) and the accepted `input_pin_buffer`. -/
structure DebounceState where
  last : Nat
  count : Nat
  buffer : Nat
  deriving DecidableEq, Repr

/-- One poll of the amplifier's edge-match debounce, src/amplifier/main.c
lines 145-153: a matching raw value pre-decrements the uint16 countdown and
is accepted into the buffer only when it reaches zero; a mismatch restarts
the countdown. -/
def debounceStep (s : DebounceState) (input : Nat) : DebounceState :=
  if input = s.last then
    let c := (s.count + 65535) % 65536
    if c = 0 then ⟨s.last, INPUT_SENSITIVITY, input⟩
    else ⟨s.last, c, s.buffer⟩
  else ⟨input, INPUT_SENSITIVITY, s.buffer⟩

/-- `j` consecutive debounce polls of the same raw value `i`. -/
def debounceIter (i j : Nat) (s : DebounceState) : DebounceState :=
  (fun s => debounceStep s i)^[j] s

/-! ## Critical-section model of the parameter handoffs

The claims about atomic handoff concern where the main loops place `cli()`
and `sei()` around their writes to interrupt-read state.  The write
sequences are modelled as lists of operations executed against an
interrupt-enable flag and a shared memory; every point of the trace at
which interrupts are enabled is a point where an interrupt could read the
memory. -/

/-- The interrupt-read globals written by the two main loops. -/
structure SharedMem where
  sampleCount : Nat
  countPer2pi : Nat
  fixedDelta : Nat
  functionStart : Nat
  ocr : Nat
  txByte : Nat
  txCount : Nat
  deriving DecidableEq, Repr

/-- One main-loop operation: interrupt disable/enable or a write of one
shared global. -/
inductive MainOp where
  | cli : MainOp
  | sei : MainOp
  | wSampleCount (n : Nat) : MainOp
  | wCountPer2pi (n : Nat) : MainOp
  | wFixedDelta (n : Nat) : MainOp
  | wFunctionStart (n : Nat) : MainOp
  | wOcr (n : Nat) : MainOp
  | wTxByte (n : Nat) : MainOp
  | wTxCount (n : Nat) : MainOp
  deriving DecidableEq, Repr

/-- Effect of one operation on (interrupt-enable flag, shared memory). -/
def execOp : Bool × SharedMem → MainOp → Bool × SharedMem
  | (_, m), .cli => (false, m)
  | (_, m), .sei => (true, m)
  | (e, m), .wSampleCount n => (e, { m with sampleCount := n })
  | (e, m), .wCountPer2pi n => (e, { m with countPer2pi := n })
  | (e, m), .wFixedDelta n => (e, { m with fixedDelta := n })
  | (e, m), .wFunctionStart n => (e, { m with functionStart := n })
  | (e, m), .wOcr n => (e, { m with ocr := n })
  | (e, m), .wTxByte n => (e, { m with txByte := n })
  | (e, m), .wTxCount n => (e, { m with txCount := n })

/-- The trace of states before each operation and after the last one. -/
def opTrace (st : Bool × SharedMem) : List MainOp → List (Bool × SharedMem)
  | [] => [st]
  | op :: ops => st :: opTrace (execOp st op) ops

/-- The values of a projection of the memory at every interrupt-enabled
point of a trace: what an interrupt handler could observe. -/
def observable (f : SharedMem → Nat × Nat) (tr : List (Bool × SharedMem)) :
    List (Nat × Nat) :=
  (tr.filter fun st => st.1).map fun st => f st.2

/-- The pair read every sample by the local variant's audio ISR. -/
def synthPair (m : SharedMem) : Nat × Nat := (m.countPer2pi, m.fixedDelta)

/-- The pair read by the remote variant's serial ISR. -/
def txPair (m : SharedMem) : Nat × Nat := (m.txByte, m.txCount)

/-- The note-start swap of src/sequencer/main.c lines 209-214: `cli()`,
writes of `sample_count`, `count_per_2pi`, `fixed_delta_sawtooth` and
`function_start`, then `sei()`. -/
def localSwapStartOps (p d : Nat) : List MainOp :=
  [.cli, .wSampleCount 0, .wCountPer2pi p, .wFixedDelta d, .wFunctionStart 1, .sei]

/-- The silence swap of src/sequencer/main.c lines 216-220: `cli()`, writes
of `count_per_2pi`, `function_start` and `OCR0A`, then `sei()`. -/
def localSwapStopOps : List MainOp :=
  [.cli, .wCountPer2pi 0, .wFunctionStart 0, .wOcr PEAK_LOW, .sei]

/-- The transmit handoff of src/85/sequencer_pwm_uart/main.c lines 113-114:
the two writes, with no `cli()`/`sei()` around them. -/
def remoteTxOps (b : Nat) : List MainOp :=
  [.wTxByte b, .wTxCount 9]

/-! ## Helper lemmas -/

/-- The compare-value computation of src/sequencer/main.c lines 252-253
agrees with the spec's description of it (8-bit integer part of the
fixed-point value, rounded half-up on fractional bit 6). -/
theorem codeConv_eq_specConv (v : Nat) :
    ((v <<< 1) % 65536) >>> 8 + (if v.testBit 6 then 1 else 0) = specConv v := by
  rw [Nat.shiftLeft_eq, Nat.shiftRight_eq_div_pow, Nat.testBit_to_div_mod]
  have h6 : (2 : Nat) ^ 6 = 64 := rfl
  have h8 : (2 : Nat) ^ 8 = 256 := rfl
  rw [h6, h8]
  simp only [specConv]
  rcases Nat.mod_two_eq_zero_or_one (v / 64) with h2 | h2 <;> simp [h2] <;> omega

/-- If `n + 1` iterations of `f` land back on the state after one
iteration, the orbit from the first iterate on is `n + 1`-periodic. -/
theorem iterate_return {α : Type} (f : α → α) (x : α) (n : Nat)
    (h : f^[n + 1] x = f^[1] x) (k : Nat) : f^[k + 1 + n] x = f^[k + 1] x := by
  have he : k + 1 + n = k + (n + 1) := by omega
  rw [he, Function.iterate_add_apply, h, ← Function.iterate_add_apply]

/-- The note table extracted from the decode chain, spelled out. -/
theorem notePairs_eq :
    notePairs = [(95, 343), (84, 388), (75, 435), (70, 466), (63, 518), (56, 582),
                 (52, 627), (47, 694), (41, 796), (37, 882), (35, 932)] := by decide

/-- Running the amplifier debounce `j` polls with the raw value it already
latched counts the sensitivity counter down without touching the accepted
buffer, as long as the countdown has not elapsed. -/
theorem debounce_countdown : ∀ (j : Nat) (s : DebounceState) (i : Nat),
    s.last = i → j < s.count → s.count ≤ 65535 →
    debounceIter i j s = ⟨i, s.count - j, s.buffer⟩ := by
  intro j
  induction j with
  | zero =>
    intro s i hl _ _
    cases s
    simp only [debounceIter, Function.iterate_zero, id_eq] at hl ⊢
    simp [hl]
  | succ j ih =>
    intro s i hl hj hc
    have hstep : debounceStep s i = ⟨i, s.count - 1, s.buffer⟩ := by
      rw [debounceStep, if_pos hl.symm]
      have hmod : (s.count + 65535) % 65536 = s.count - 1 := by omega
      rw [hmod, if_neg (by omega), hl]
    have hsucc : debounceIter i (j + 1) s = debounceIter i j (debounceStep s i) := by
      simp [debounceIter, Function.iterate_succ_apply]
    rw [hsucc, hstep,
      ih ⟨i, s.count - 1, s.buffer⟩ i rfl (show j < s.count - 1 by omega)
        (show s.count - 1 ≤ 65535 by omega)]
    have he : s.count - 1 - j = s.count - (j + 1) := by omega
    simp [he]

/-! ## C1 -/

/-- C1 counterexample: in the local-clock variant the step counter is
0-based; advancing it from step 63 (the last step of the 64-step programs)
wraps it to 0, not to 1 (src/sequencer/main.c line 150 clamps
`>= SEQUENCER_COUNTUPTO` to 0), refuting "it wraps to the first valid step,
value 1, and never to 0" for that variant. -/
theorem C1_counterexample : localAdvance 63 = 0 ∧ localAdvance 63 ≠ 1 := by decide

/-- C1 (amended): advancing the step counter exactly the program length
(64) times from step 1 returns it to step 1 in both variants; past the
program length the remote variant's counter wraps to 1, while the local
variant's 0-based counter wraps to 0; and for every counter value in its
per-iteration range the remote advance never yields 0. -/
theorem C1_wraparound_amended :
    localAdvance^[SEQUENCER_COUNTUPTO] 1 = 1
    ∧ remoteAdvance^[SEQUENCER_PROGRAM_COUNTUPTO] 1 = 1
    ∧ remoteAdvance SEQUENCER_PROGRAM_COUNTUPTO = 1
    ∧ localAdvance (SEQUENCER_COUNTUPTO - 1) = 0
    ∧ ∀ c : Fin 65536, c.val ≤ SEQUENCER_PROGRAM_COUNTUPTO → remoteAdvance c.val ≠ 0 := by
  refine ⟨by decide, by decide, by decide, by decide, ?_⟩
  intro c hc
  simp only [SEQUENCER_PROGRAM_COUNTUPTO] at hc
  simp only [remoteAdvance, SEQUENCER_PROGRAM_COUNTUPTO]
  split <;> omega

/-- C1 witness: the remote advance applied at the wrap boundary itself. -/
theorem C1_wraparound_amended_witness : remoteAdvance 64 ≠ 0 :=
  C1_wraparound_amended.2.2.2.2 ⟨64, by decide⟩ (by decide)

/-! ## C2 -/

/-- C2: the step decode is total on bytes with exactly the claimed
classification: every value ≥ 223 yields the signed calibration delta
`value - 239`; every value 1..11 yields a note; every other value (0 and
12..222) yields silence; and the wrap-period / phase-increment pairs of the
notes are pairwise distinct. -/
theorem C2_decode_total :
    (∀ v : Fin 256, 223 ≤ v.val → sequencerDecode v.val = .calib ((v.val : Int) - 239))
    ∧ (∀ v : Fin 256, 1 ≤ v.val → v.val ≤ 11 →
        (notePairOf (sequencerDecode v.val)).isSome = true)
    ∧ (∀ v : Fin 256, v.val = 0 ∨ (12 ≤ v.val ∧ v.val ≤ 222) →
        sequencerDecode v.val = .silence)
    ∧ notePairs.Nodup := by
  refine ⟨by decide, by decide, by decide, by decide⟩

/-- C2 witness: the decode evaluated in each band — a calibration value, a
note value and a silence value. -/
theorem C2_decode_total_witness :
    sequencerDecode 250 = .calib 11
    ∧ (notePairOf (sequencerDecode 6)).isSome = true
    ∧ sequencerDecode 100 = .silence :=
  ⟨C2_decode_total.1 ⟨250, by decide⟩ (by decide),
   C2_decode_total.2.1 ⟨6, by decide⟩ (by decide) (by decide),
   C2_decode_total.2.2.1 ⟨100, by decide⟩ (Or.inr ⟨by decide, by decide⟩)⟩

/-! ## C3 -/

/-- C3 counterexample: in the remote variant the clamp of lines 103-105
only catches counter values above the program length; at step-counter
value 0 (out of the 1-based range, with a differing last-processed marker)
the uint16 column index `count_last - 1` actually used by the table read of
line 112 wraps to 65535, far outside `[0, length-1]`.  (The source itself
carries this case as a commented-out guard, line 111.) -/
theorem C3_counterexample :
    remoteStepIndex 0 = 65535
    ∧ ¬ remoteStepIndex 0 < SEQUENCER_PROGRAM_COUNTUPTO
    ∧ (seqTxStep (fun r c => r * 1000 + c) ⟨false, 0x58, 0, 5, true⟩ ⟨0, 0⟩).2.txByte
        = 0 * 1000 + 65535 := by decide

/-- C3 (amended): the indices used for the program-table lookup are always
in bounds, except that the remote variant's step clamp assumes the 1-based
counter is never 0 at lookup time: in the local variant any selector and
any counter value yield a row below the program count and a column below
the program length; in the remote variant any byte yields an in-bounds row,
and any counter value ≥ 1 yields an in-bounds column. -/
theorem C3_clamp_amended :
    (∀ (s : LocalSeqState) (pin r c : Nat),
        (localSeqPoll s pin).2 = some (r, c) →
        r < SEQUENCER_SEQUENCENUMBER ∧ c < SEQUENCER_COUNTUPTO)
    ∧ (∀ b : Nat, remoteProgClamp b < SEQUENCER_PROGRAM_LENGTH)
    ∧ (∀ cu : Nat, 1 ≤ cu → remoteStepIndex cu < SEQUENCER_PROGRAM_COUNTUPTO) := by
  refine ⟨?_, ?_, ?_⟩
  · intro s pin r c h
    by_cases hpin : pin ≠ 0
    · rw [localSeqPoll, if_pos hpin] at h
      by_cases hdec : s.countStart = false ∨ s.countUpdate ≠ s.countLast
      · rw [if_pos hdec] at h
        simp only [Option.some.injEq, Prod.mk.injEq] at h
        obtain ⟨hr, hc⟩ := h
        simp only [SEQUENCER_SEQUENCENUMBER, SEQUENCER_COUNTUPTO] at hr hc ⊢
        constructor
        · rcases Nat.lt_or_ge pin 3 with hp | hp
          · rw [if_neg (by omega)] at hr
            omega
          · rw [if_pos (by omega)] at hr
            omega
        · rcases Nat.lt_or_ge s.countUpdate 64 with hq | hq
          · rw [if_neg (by omega)] at hc
            omega
          · rw [if_pos (by omega)] at hc
            omega
      · rw [if_neg hdec] at h
        exact absurd h (by simp)
    · rw [localSeqPoll, if_neg hpin] at h
      by_cases hstart : s.countStart = true
      · rw [if_pos hstart] at h
        exact absurd h (by simp)
      · rw [if_neg hstart] at h
        exact absurd h (by simp)
  · intro b
    have hand : b &&& SEQUENCER_BYTE_PROGRAM_MASK ≤ SEQUENCER_BYTE_PROGRAM_MASK :=
      Nat.and_le_right
    simp only [SEQUENCER_BYTE_PROGRAM_MASK] at hand
    simp only [remoteProgClamp, SEQUENCER_BYTE_PROGRAM_MASK, SEQUENCER_PROGRAM_LENGTH]
    split <;> omega
  · intro cu h1
    simp only [remoteStepIndex, remoteStepClamp, SEQUENCER_PROGRAM_COUNTUPTO]
    split <;> omega

/-- C3 witness: the clamps applied at in-range and out-of-range concrete
inputs. -/
theorem C3_clamp_amended_witness :
    ((1 : Nat) < SEQUENCER_SEQUENCENUMBER ∧ (0 : Nat) < SEQUENCER_COUNTUPTO)
    ∧ remoteProgClamp 0xFF < SEQUENCER_PROGRAM_LENGTH
    ∧ remoteStepIndex 200 < SEQUENCER_PROGRAM_COUNTUPTO :=
  ⟨C3_clamp_amended.1 ⟨false, 0, 0⟩ 2 1 0 (by decide),
   C3_clamp_amended.2.1 0xFF,
   C3_clamp_amended.2.2 200 (by decide)⟩

/-! ## C4 -/

/-- C4 counterexample: the remote variant's transmit handoff
(src/85/sequencer_pwm_uart/main.c lines 113-114) performs its two writes
with interrupts enabled — there is no `cli()`/`sei()` in the main loop —
so the serial-rate interrupt can fire between them and observe the fresh
transmit byte paired with the stale transmit count: writing byte 6 over an
idle pair (0, 0), the interrupt-enabled observation points are exactly
(0, 0), (6, 0) and (6, 9), and (6, 0) mixes the two handoffs. -/
theorem C4_counterexample :
    observable txPair (opTrace (true, ⟨0, 0, 0, 0, 0, 0, 0⟩) (remoteTxOps 6))
      = [(0, 0), (6, 0), (6, 9)]
    ∧ ((6, 0) : Nat × Nat) ≠ (0, 0) ∧ ((6, 0) : Nat × Nat) ≠ (6, 9) := by decide

/-- C4 (amended): the local variant's phase-increment / wrap-period pair is
written entirely inside a `cli()`/`sei()` critical section, for the
note-start swap and for the silence swap alike, so an interrupt can only
ever observe the pre-swap pair or the post-swap pair; the remote variant's
transmit byte / count pair, however, is written with interrupts enabled,
and the intermediate mixed pair is observable between the two writes. -/
theorem C4_atomic_amended :
    ∀ (m : SharedMem) (p d b : Nat),
      observable synthPair (opTrace (true, m) (localSwapStartOps p d))
        = [(m.countPer2pi, m.fixedDelta), (p, d)]
      ∧ observable synthPair (opTrace (true, m) localSwapStopOps)
        = [(m.countPer2pi, m.fixedDelta), (0, m.fixedDelta)]
      ∧ observable txPair (opTrace (true, m) (remoteTxOps b))
        = [(m.txByte, m.txCount), (b, m.txCount), (b, 9)] := by
  intro m p d b
  refine ⟨rfl, rfl, rfl⟩

/-! ## C5 -/

/-- C5: the remote-clock state machine obeys the three claimed transition
rules (src/85/sequencer_pwm_uart/main.c lines 90-101, with the start flag
of the missing header modelled from the spec as bit 3): a fresh byte with
the start flag set while running increments the 16-bit step counter; a
latest byte with the start flag set while idle starts the machine,
resetting the counter to 1 and the last-processed marker to 0; a latest
byte with the start flag clear while running stops the machine, leaving
counter and marker untouched. -/
theorem C5_state_machine :
    (∀ (s : RemoteSeqState) (t : Bool) (b : Nat),
        s.toggleLast ≠ t →
        b &&& SEQUENCER_BYTE_GROUP_START_BIT = SEQUENCER_BYTE_GROUP_START_BIT →
        s.isStart = true →
        (seqMachineStep s t b).countUpdate = (s.countUpdate + 1) % 65536
        ∧ (seqMachineStep s t b).isStart = true
        ∧ (seqMachineStep s t b).countLast = s.countLast)
    ∧ (∀ (s : RemoteSeqState) (t : Bool) (b : Nat),
        s.isStart = false →
        latestByte s t b &&& SEQUENCER_BYTE_GROUP_START_BIT = SEQUENCER_BYTE_GROUP_START_BIT →
        (seqMachineStep s t b).isStart = true
        ∧ (seqMachineStep s t b).countUpdate = 1
        ∧ (seqMachineStep s t b).countLast = 0)
    ∧ (∀ (s : RemoteSeqState) (t : Bool) (b : Nat),
        s.isStart = true →
        latestByte s t b &&& SEQUENCER_BYTE_GROUP_START_BIT = SEQUENCER_BYTE_GROUP_BIT →
        (seqMachineStep s t b).isStart = false
        ∧ (seqMachineStep s t b).countUpdate = s.countUpdate
        ∧ (seqMachineStep s t b).countLast = s.countLast) := by
  refine ⟨?_, ?_, ?_⟩
  · intro s t b ht hb hstart
    simp only [SEQUENCER_BYTE_GROUP_START_BIT] at hb
    unfold seqMachineStep seqRxPhase seqStartStopPhase
    simp only [SEQUENCER_BYTE_GROUP_START_BIT, SEQUENCER_BYTE_GROUP_BIT]
    rw [if_pos ht]
    simp [hb, hstart]
  · intro s t b hstart hb
    by_cases ht : s.toggleLast ≠ t
    · rw [latestByte, if_pos ht] at hb
      simp only [SEQUENCER_BYTE_GROUP_START_BIT] at hb
      unfold seqMachineStep seqRxPhase seqStartStopPhase
      simp only [SEQUENCER_BYTE_GROUP_START_BIT, SEQUENCER_BYTE_GROUP_BIT]
      rw [if_pos ht]
      simp [hb, hstart]
    · rw [latestByte, if_neg ht] at hb
      simp only [SEQUENCER_BYTE_GROUP_START_BIT] at hb
      unfold seqMachineStep seqRxPhase seqStartStopPhase
      simp only [SEQUENCER_BYTE_GROUP_START_BIT, SEQUENCER_BYTE_GROUP_BIT]
      rw [if_neg ht]
      simp [hb, hstart]
  · intro s t b hstart hb
    by_cases ht : s.toggleLast ≠ t
    · rw [latestByte, if_pos ht] at hb
      simp only [SEQUENCER_BYTE_GROUP_START_BIT, SEQUENCER_BYTE_GROUP_BIT] at hb
      unfold seqMachineStep seqRxPhase seqStartStopPhase
      simp only [SEQUENCER_BYTE_GROUP_START_BIT, SEQUENCER_BYTE_GROUP_BIT]
      rw [if_pos ht]
      simp [hb, hstart]
    · rw [latestByte, if_neg ht] at hb
      simp only [SEQUENCER_BYTE_GROUP_START_BIT, SEQUENCER_BYTE_GROUP_BIT] at hb
      unfold seqMachineStep seqRxPhase seqStartStopPhase
      simp only [SEQUENCER_BYTE_GROUP_START_BIT, SEQUENCER_BYTE_GROUP_BIT]
      rw [if_neg ht]
      simp [hb, hstart]

/-- C5 witness: the three rules evaluated at concrete states — a running
machine clocked by a fresh 0x58 byte, an idle machine started by 0x58, and
a running machine stopped by 0x50. -/
theorem C5_state_machine_witness :
    (seqMachineStep ⟨false, 0x58, 5, 5, true⟩ true 0x58).countUpdate = (5 + 1) % 65536
    ∧ (seqMachineStep ⟨false, 0x50, 0, 0, false⟩ true 0x58).isStart = true
    ∧ (seqMachineStep ⟨false, 0x58, 7, 7, true⟩ true 0x50).isStart = false :=
  ⟨(C5_state_machine.1 ⟨false, 0x58, 5, 5, true⟩ true 0x58 (by decide) (by decide) rfl).1,
   (C5_state_machine.2.1 ⟨false, 0x50, 0, 0, false⟩ true 0x58 rfl (by decide)).1,
   (C5_state_machine.2.2 ⟨false, 0x58, 7, 7, true⟩ true 0x50 rfl (by decide)).1⟩

/-! ## C6 -/

/-- C6: each audio tick while a note is active follows the per-sample rule:
at sample count 0 the accumulator is reset (to the low peak in fixed-point)
and the compare register is forced to the low peak; on every other in-cycle
tick the phase increment is added to the 16-bit accumulator and the compare
register receives the accumulator's 8-bit integer part, shifted out of the
7-fractional-bit scale and rounded half-up on fractional bit 6 (the
`specConv` form). -/
theorem C6_synth_step :
    ∀ (p d : Nat) (s : SynthState),
      (s.sampleCount = 0 →
        (synthStep p d s).fixedValue = PEAK_LOW <<< 7
        ∧ (synthStep p d s).ocr = PEAK_LOW)
      ∧ (0 < s.sampleCount → s.sampleCount ≤ p →
        (synthStep p d s).fixedValue = (s.fixedValue + d) % 65536
        ∧ (synthStep p d s).ocr = specConv ((s.fixedValue + d) % 65536) % 256) := by
  intro p d s
  constructor
  · intro h0
    simp [synthStep, h0]
  · intro h1 h2
    have hne : ¬ s.sampleCount = 0 := by omega
    simp only [synthStep, if_neg hne, if_pos h2]
    refine ⟨by trivial, ?_⟩
    rw [← codeConv_eq_specConv]
    by_cases hbit : ((s.fixedValue + d) % 65536).testBit 6 <;> simp [hbit]

/-- C6 witness: the rule evaluated at a cycle start and at an in-cycle
tick of the E5 note. -/
theorem C6_synth_step_witness :
    ((synthStep 56 582 ⟨0, 9, 9⟩).fixedValue = PEAK_LOW <<< 7
      ∧ (synthStep 56 582 ⟨0, 9, 9⟩).ocr = PEAK_LOW)
    ∧ ((synthStep 56 582 ⟨3, 1000, 7⟩).fixedValue = (1000 + 582) % 65536
      ∧ (synthStep 56 582 ⟨3, 1000, 7⟩).ocr = specConv ((1000 + 582) % 65536) % 256) :=
  ⟨(C6_synth_step 56 582 ⟨0, 9, 9⟩).1 rfl,
   (C6_synth_step 56 582 ⟨3, 1000, 7⟩).2 (by decide) (by decide)⟩

/-! ## C7 -/

/-- C7 counterexample: for the note-table entry with wrap period 35 and
phase increment 932 (note value 11, C6), after exactly 35 ticks from
power-on the cycle has not reset: the sample counter stands at 35, not 0;
the reset happens on tick 36 = p + 1 (the source comment itself gives the
period as `count_per_2pi + 1` samples). -/
theorem C7_counterexample :
    ((35, 932) ∈ notePairs)
    ∧ (synthIter 35 932 35).sampleCount = 35
    ∧ (synthIter 35 932 35).sampleCount ≠ 0 := by
  refine ⟨by rw [notePairs_eq]; decide, by decide, by decide⟩

/-- C7 (amended): for every wrap-period / phase-increment pair (p, d) in
the note table, starting from power-on, after p + 1 ticks (not p) the
sample counter returns to 0; the compare values emitted over ticks 1
through p + 1 form exactly one ramp starting at the low peak and strictly
increasing; and the whole evolution from tick 1 on is periodic with period
p + 1. -/
theorem C7_periodicity_amended :
    ∀ pd : Nat × Nat, pd ∈ notePairs →
      (synthIter pd.1 pd.2 (pd.1 + 1)).sampleCount = 0
      ∧ rampOk pd.1 pd.2 = true
      ∧ ∀ k : Nat, synthIter pd.1 pd.2 (k + 1 + (pd.1 + 1)) = synthIter pd.1 pd.2 (k + 1) := by
  intro pd hpd
  rw [notePairs_eq] at hpd
  fin_cases hpd <;>
    exact ⟨by decide, by decide,
      fun k => iterate_return _ synthInit _ (by decide) k⟩

/-- C7 witness: the amended claim applied to the extreme table entry
(35, 932): reset after 36 ticks and one concrete instance of the
periodicity. -/
theorem C7_periodicity_amended_witness :
    (synthIter 35 932 (35 + 1)).sampleCount = 0
    ∧ synthIter 35 932 (5 + 1 + (35 + 1)) = synthIter 35 932 (5 + 1) :=
  ⟨(C7_periodicity_amended (35, 932) (by rw [notePairs_eq]; decide)).1,
   (C7_periodicity_amended (35, 932) (by rw [notePairs_eq]; decide)).2.2 5⟩

/-! ## C8 -/

/-- C8: in the remote variant, whenever the step counter differs from the
last-processed marker, exactly the byte fetched from the clamped
program-table position is handed to the serial layer together with a
transmit count of 9, and the marker is set to the clamped counter; when the
counter has not changed, the transmit pair and the machine state are left
untouched (src/85/sequencer_pwm_uart/main.c lines 102-115; the program
table of the missing header is an arbitrary parameter). -/
theorem C8_tx_handoff :
    ∀ (table : Nat → Nat → Nat) (s : RemoteSeqState) (tx : TxState),
      (s.countUpdate ≠ s.countLast →
        (seqTxStep table s tx).2.txByte
            = table (remoteProgClamp s.byteLast) (remoteStepIndex s.countUpdate)
        ∧ (seqTxStep table s tx).2.txCount = 9
        ∧ (seqTxStep table s tx).1.countLast = remoteStepClamp s.countUpdate)
      ∧ (s.countUpdate = s.countLast →
        (seqTxStep table s tx).2 = tx ∧ (seqTxStep table s tx).1 = s) := by
  intro table s tx
  constructor
  · intro h
    simp [seqTxStep, h]
  · intro h
    simp [seqTxStep, h]

/-- C8 witness: a changed counter hands exactly the clamped table byte with
count 9. -/
theorem C8_tx_handoff_witness :
    (seqTxStep (fun r c => r * 100 + c) ⟨false, 2, 5, 4, true⟩ ⟨0, 0⟩).2.txByte
        = (fun r c => r * 100 + c) (remoteProgClamp 2) (remoteStepIndex 5)
    ∧ (seqTxStep (fun r c => r * 100 + c) ⟨false, 2, 5, 4, true⟩ ⟨0, 0⟩).2.txCount = 9
    ∧ (seqTxStep (fun r c => r * 100 + c) ⟨false, 2, 5, 4, true⟩ ⟨0, 0⟩).1.countLast
        = remoteStepClamp 5 :=
  (C8_tx_handoff (fun r c => r * 100 + c) ⟨false, 2, 5, 4, true⟩ ⟨0, 0⟩).1 (by decide)

/-! ## C9 -/

/-- C9 counterexample: the local-clock sequencer has no debounce at all —
its cursor state carries no edge-match counter, and from one and the same
cursor state a raw pin value of 1 selects program row 0 while a raw pin
value of 2 selects program row 1, each at the very first poll it appears
(src/sequencer/main.c lines 141-154 read `PINB` directly into the decode).
This refutes "a raw pin state takes effect only after it has remained
unchanged for a configured number of consecutive polls". -/
theorem C9_counterexample :
    (localSeqPoll ⟨true, 5, 4⟩ 1).2 = some (0, 5)
    ∧ (localSeqPoll ⟨true, 5, 4⟩ 2).2 = some (1, 5) := by decide

/-- C9 (amended): the edge-match debounce counter lives in the amplifier,
not in the local-clock sequencer.  In the amplifier's ISR a raw 2-bit gain
value is accepted into the buffer only after its countdown of consecutive
matching polls elapses — until then the previously accepted buffer stays in
force, and when the countdown elapses the raw value is accepted.  The
local-clock sequencer instead uses the raw pins of the current poll
directly: the program row it looks up is independent of any previous poll
history. -/
theorem C9_debounce_amended :
    (∀ (s : DebounceState) (i j : Nat), s.last = i → j < s.count → s.count ≤ 65535 →
        (debounceIter i j s).buffer = s.buffer)
    ∧ (∀ (s : DebounceState) (i : Nat), s.last = i → 0 < s.count → s.count ≤ 65535 →
        (debounceIter i s.count s).buffer = i)
    ∧ (∀ (s1 s2 : LocalSeqState) (pin : Nat), pin ≠ 0 →
        (s1.countStart = false ∨ s1.countUpdate ≠ s1.countLast) →
        (s2.countStart = false ∨ s2.countUpdate ≠ s2.countLast) →
        ((localSeqPoll s1 pin).2.map Prod.fst) = ((localSeqPoll s2 pin).2.map Prod.fst)) := by
  refine ⟨?_, ?_, ?_⟩
  · intro s i j hl hj hc
    rw [debounce_countdown j s i hl hj hc]
  · intro s i hl hcpos hc
    obtain ⟨c, hceq⟩ : ∃ c, s.count = c + 1 := ⟨s.count - 1, by omega⟩
    have hiter : debounceIter i (c + 1) s = debounceStep (debounceIter i c s) i := by
      simp [debounceIter, Function.iterate_succ_apply']
    have hmid : debounceIter i c s = ⟨i, s.count - c, s.buffer⟩ :=
      debounce_countdown c s i hl (by omega) hc
    have hone : s.count - c = 1 := by omega
    have hstep : debounceStep ⟨i, 1, s.buffer⟩ i = ⟨i, INPUT_SENSITIVITY, i⟩ := by
      unfold debounceStep
      norm_num
    rw [hceq, hiter, hmid, hone, hstep]
  · intro s1 s2 pin hpin h1 h2
    rw [localSeqPoll, if_pos hpin, if_pos h1, localSeqPoll, if_pos hpin, if_pos h2]
    simp

/-- C9 witness: a countdown in progress keeps the old buffer; a full
countdown accepts the raw value; two different cursor histories select the
same row from the same raw pin. -/
theorem C9_debounce_amended_witness :
    (debounceIter 7 100 ⟨7, 250, 3⟩).buffer = 3
    ∧ (debounceIter 7 250 ⟨7, 250, 3⟩).buffer = 7
    ∧ ((localSeqPoll ⟨false, 0, 0⟩ 2).2.map Prod.fst)
        = ((localSeqPoll ⟨true, 9, 2⟩ 2).2.map Prod.fst) :=
  ⟨C9_debounce_amended.1 ⟨7, 250, 3⟩ 7 100 rfl (by decide) (by decide),
   C9_debounce_amended.2.1 ⟨7, 250, 3⟩ 7 rfl (by decide) (by decide),
   C9_debounce_amended.2.2 ⟨false, 0, 0⟩ ⟨true, 9, 2⟩ 2 (by decide)
     (Or.inl rfl) (Or.inr (by decide))⟩

/-! ## C10 -/

/-- C10: for every entry (p, d) of the compiled-in note table the product
p * d stays below 2^15, and along the whole first cycle from power-on
(ticks 0 through p + 1) the 16-bit phase accumulator never has bit 15 set,
the shift-and-round conversion of its value never exceeds 255 (so the
assignment to the 8-bit compare register never wraps modulo 256), and the
emitted duty value stays within [0, 255]. -/
theorem C10_no_overflow :
    ∀ pd : Nat × Nat, pd ∈ notePairs →
      pd.1 * pd.2 < 32768
      ∧ ∀ s : SynthState, s ∈ synthTrace pd.1 pd.2 (pd.1 + 2) synthInit →
          s.fixedValue.testBit 15 = false
          ∧ specConv s.fixedValue ≤ 255
          ∧ s.ocr ≤ 255 := by
  intro pd hpd
  rw [notePairs_eq] at hpd
  fin_cases hpd <;> exact ⟨by decide, by decide⟩

/-- C10 witness: the bound applied to the extreme table entry (35, 932) at
the power-on state of its cycle. -/
theorem C10_no_overflow_witness :
    (35 : Nat) * 932 < 32768
    ∧ (synthInit.fixedValue.testBit 15 = false
      ∧ specConv synthInit.fixedValue ≤ 255
      ∧ synthInit.ocr ≤ 255) :=
  ⟨(C10_no_overflow (35, 932) (by rw [notePairs_eq]; decide)).1,
   (C10_no_overflow (35, 932) (by rw [notePairs_eq]; decide)).2 synthInit (by decide)⟩
